import Mathlib

/-!
Shallow embedding of the netflow_analyzer repository (netflow v5 ingestion
and dispatch pipeline, plus the simple DDoS detector consumer module).

Source files embedded:
- `src/netflow_analyzer.py` : `NetflowParser.parse_netflow_packet` and the
  `__main__` dispatch loop (counters and per-module fan-out).
- `src/modules/simple_ddos_detector/main.py` : `SimpleDDoSDetector`
  (`update_state`, `detect_ddos_targets`, the windowed `run` loop).

Bytes are modelled as `List Nat` (each entry a byte value); Python `struct`
big-endian reads become explicit base-256 arithmetic.  Python code that can
raise is modelled in `Except`: `struct.unpack` on a slice of the wrong length
raises `struct.error`, and `/` raises `ZeroDivisionError` on a zero
denominator.  Python `float` division in the detector is modelled as exact
division in `ℚ`.
-/

namespace NetflowAnalyzer

/-- Big-endian 16-bit unsigned read at byte offset `o` (struct format `!H`). -/
def be2 (d : List Nat) (o : Nat) : Nat :=
  256 * d.getD o 0 + d.getD (o + 1) 0

/-- Big-endian 32-bit unsigned read at byte offset `o` (struct format `!L`). -/
def be4 (d : List Nat) (o : Nat) : Nat :=
  256 * (256 * (256 * d.getD o 0 + d.getD (o + 1) 0) + d.getD (o + 2) 0)
    + d.getD (o + 3) 0

/-- The fields of one v5 flow record that `parse_netflow_packet` keeps
(the dict built at lines 87-96 of `netflow_analyzer.py`). -/
structure FlowRecord where
  src_addr : Nat
  dst_addr : Nat
  src_port : Nat
  dst_port : Nat
  npackets : Nat
  nbytes : Nat
  tcpflags : Nat
  proto : Nat
deriving Repr, DecidableEq

/-- The header fields `parse_netflow_packet` keeps (`version`, `nflows`). -/
structure FlowHeader where
  version : Nat
  nflows : Nat
deriving Repr, DecidableEq

/-- The packet dict `{'header': ..., 'flows': ...}` returned on success. -/
structure FlowPacket where
  header : FlowHeader
  flows : List FlowRecord
deriving Repr, DecidableEq

/-- Exceptions the parser body can raise: `struct.error` from `struct.unpack`
when the buffer slice does not have exactly the format's size. -/
inductive ParseExc where
  | structError
deriving Repr, DecidableEq

/-- One 48-byte flow record read at byte offset `o`, with the field offsets of
struct format `!LLLHHLLLLHHBBBBHHBBH`: index 0 = `src_addr` (offset 0),
1 = `dst_addr` (4), 5 = `npackets` (16), 6 = `nbytes` (20),
9 = `src_port` (32), 10 = `dst_port` (34), 12 = `tcpflags` (37),
13 = `proto` (38). -/
def parseFlow (d : List Nat) (o : Nat) : FlowRecord :=
  { src_addr := be4 d o
    dst_addr := be4 d (o + 4)
    src_port := be2 d (o + 32)
    dst_port := be2 d (o + 34)
    npackets := be4 d (o + 16)
    nbytes := be4 d (o + 20)
    tcpflags := d.getD (o + 37) 0
    proto := d.getD (o + 38) 0 }

/-- The `for i in range(nflows)` loop of `parse_netflow_packet`: unpack the
48-byte slice at each offset in turn.  `recv_data[off:off+48]` has exactly 48
bytes iff `off + 48 ≤ len(recv_data)`; otherwise `struct.unpack` raises
`struct.error`, discarding the flows accumulated so far. -/
def parseFlows (d : List Nat) : Nat → Nat → Except ParseExc (List FlowRecord)
  | _, 0 => .ok []
  | start, cnt + 1 =>
    if start + 48 ≤ d.length then
      match parseFlows d (start + 48) cnt with
      | .ok rest => .ok (parseFlow d start :: rest)
      | .error e => .error e
    else .error .structError

/-- `NetflowParser.parse_netflow_packet` (lines 35-100).  Returns `none` for
falsy (empty) input and for a version other than 5; raises `struct.error`
(modelled as `.error`) when a header or record slice is short.  Note that on a
length mismatch (line 80) the source only logs `'Malformed packet received'`
and falls through to record parsing: there is no early return there. -/
def parse_netflow_packet (recv_data : List Nat) :
    Except ParseExc (Option FlowPacket) :=
  if recv_data.length = 0 then .ok none
  else if recv_data.length < 24 then .error .structError
  else
    let version := be2 recv_data 0
    let nflows := be2 recv_data 2
    if version ≠ 5 then .ok none
    else
      match parseFlows recv_data 24 nflows with
      | .error e => .error e
      | .ok flows =>
        .ok (some { header := { version := version, nflows := nflows }
                    flows := flows })

/-- Predicate for the source's malformed-length log at line 80:
`len(recv_data) != header_len + nflows * flow_len`. -/
def malformedLength (recv_data : List Nat) : Prop :=
  recv_data.length ≠ 24 + 48 * be2 recv_data 2

instance (d : List Nat) : Decidable (malformedLength d) := by
  unfold malformedLength; infer_instance

/-!
The `__main__` dispatch loop (lines 200-221 of `netflow_analyzer.py`).

One registered analysis module is a `Consumer`: its name, its input queue's
contents, and whether `queue.put` raises for it (channel closed, process
gone, ...).  The loop, per readable-socket event, receives a datagram (or
`BlockingIOError`), increments `packets_total`, invokes the parser, and on a
truthy result increments `packets_processed` and puts the packet on every
module's queue, catching and logging per-module `put` failures.

Note: line 211 of the source invokes the parser as `nfp.parse_packet`, but
`NetflowParser` defines no such method (only `parse_netflow_packet`, with no
alias, `__getattr__` or subclassing), so in the program as written the
attribute lookup raises `AttributeError` on every datagram — after the
`packets_total` increment at line 207 and before any decode.  The exception
is caught by the `except` at line 220 and the loop continues; the branches at
lines 212-219 (the `packets_processed` increment and the fan-out) are
unreachable at runtime.  The embedding models this faithfully: `parse_packet`
below always raises, and `serviceEvent` keeps the unreachable branches as
written.
-/

/-- One registered analysis module as the dispatch loop sees it. -/
structure Consumer where
  name : String
  queue : List FlowPacket
  failing : Bool
deriving Repr, DecidableEq

/-- `module_output_queue.put(pack)` under the per-module `try`: a failing put
raises, is caught, and leaves the queue unchanged; otherwise the packet is
appended once. -/
def putPacket (c : Consumer) (p : FlowPacket) : Consumer :=
  if c.failing then c else { c with queue := c.queue ++ [p] }

/-- The fan-out `for mod_name in gcfg.module_objects.keys()` (lines 215-219):
every module is attempted in order; the second component collects the names
logged by the per-module `except` branch. -/
def dispatchToModules : List Consumer → FlowPacket → List Consumer × List String
  | [], _ => ([], [])
  | c :: cs, p =>
    let rest := dispatchToModules cs p
    (putPacket c p :: rest.1,
     (if c.failing then [c.name] else []) ++ rest.2)

/-- Dispatch-loop counters and module set (`gcfg.packets_total`,
`gcfg.packets_processed`, `gcfg.module_objects`). -/
structure LoopState where
  packets_total : Nat
  packets_processed : Nat
  consumers : List Consumer
deriving Repr, DecidableEq

/-- What one readable-socket event yields: `recvfrom` raised
`BlockingIOError`, or returned one datagram. -/
inductive Event where
  | wouldBlock
  | datagram (d : List Nat)
deriving Repr

/-- The exception raised by the decode step: `NetflowParser` has no attribute
`parse_packet`, so the method lookup at line 211 raises `AttributeError`. -/
inductive LoopExc where
  | attributeError
deriving Repr, DecidableEq

/-- `nfp.parse_packet(recv_data)` as written at line 211: the attribute does
not exist on `NetflowParser`, so the call raises `AttributeError` for every
datagram and no decode is performed. -/
def parse_packet (recv_data : List Nat) : Except LoopExc (Option FlowPacket) :=
  .error .attributeError

/-- Servicing one socket event (lines 204-219): on `BlockingIOError`, `pass`;
on a datagram, increment `packets_total` (line 207), then invoke
`nfp.parse_packet` — which raises `AttributeError`, propagating to the outer
`except` (line 220), which logs and continues.  The `if pack:` branches
(processed increment and fan-out, lines 212-219) are kept as written but are
never reached, since the decode call never returns. -/
def serviceEvent (s : LoopState) (ev : Event) : LoopState :=
  match ev with
  | .wouldBlock => s
  | .datagram d =>
    let s1 := { s with packets_total := s.packets_total + 1 }
    match parse_packet d with
    | .error _ => s1
    | .ok none => s1
    | .ok (some p) =>
      { s1 with
        packets_processed := s1.packets_processed + 1
        consumers := (dispatchToModules s1.consumers p).1 }

/-- The `while not gcfg.stop_event.is_set()` loop over a sequence of socket
events. -/
def runLoop (s : LoopState) (evs : List Event) : LoopState :=
  evs.foldl serviceEvent s

/-!
`SimpleDDoSDetector` (`src/modules/simple_ddos_detector/main.py`).

`ips_state` is a dict from destination address to a `defaultdict(int)` from
source address to accumulated packet count; both levels are embedded as
association lists in insertion order, exactly as Python dicts preserve it.
-/

/-- The detector options read from the module descriptor.
`max_avg_packet_size` is compared against the `float` quotient
`nbytes/npackets`, embedded as exact division in `ℚ`. -/
structure DetectorConfig where
  analysis_interval : Nat
  ips_threshold : Nat
  max_avg_packet_size : ℚ
  min_packets_per_source : Nat

/-- `self.ips_state`: destination address ↦ (source address ↦ packet count),
in insertion order. -/
abbrev IpsState := List (Nat × List (Nat × Nat))

/-- Exception from Python `/` with a zero denominator. -/
inductive ZeroDiv where
  | zeroDivisionError
deriving Repr, DecidableEq

/-- `self.ips_state[dst_addr][src_addr] += npackets` on an inner
`defaultdict(int)`: a missing source key starts at 0 and the sum is appended
at the end of the dict. -/
def bump (src n : Nat) : List (Nat × Nat) → List (Nat × Nat)
  | [] => [(src, n)]
  | (s, c) :: rest =>
    if s = src then (s, c + n) :: rest else (s, c) :: bump src n rest

/-- The per-record accrual of `update_state` (lines 30-33): insert the
destination with a fresh empty inner dict when absent, then bump the source's
count. -/
def accrue (dst src n : Nat) : IpsState → IpsState
  | [] => [(dst, [(src, n)])]
  | (d, srcs) :: rest =>
    if d = dst then (d, bump src n srcs) :: rest
    else (d, srcs) :: accrue dst src n rest

/-- `SimpleDDoSDetector.update_state` (lines 25-33) over the packet's flow
list.  `avg_packet_size = nbytes/npackets` raises `ZeroDivisionError` when
`npackets == 0` (there is no guard in the source); otherwise the record
accrues exactly when the exact quotient is below `max_avg_packet_size`. -/
def update_state (cfg : DetectorConfig) (st : IpsState) :
    List FlowRecord → Except ZeroDiv IpsState
  | [] => .ok st
  | f :: rest =>
    if f.npackets = 0 then .error .zeroDivisionError
    else
      update_state cfg
        (if (f.nbytes : ℚ) / (f.npackets : ℚ) < cfg.max_avg_packet_size then
          accrue f.dst_addr f.src_addr f.npackets st
        else st)
        rest

/-- The inner `for src_addr in ...` loop of `detect_ddos_targets` with its
early `break`: true iff no source's count is below `min_packets_per_source`. -/
def sourcesAllAbove (minp : Nat) : List (Nat × Nat) → Bool
  | [] => true
  | (_, c) :: rest => if c < minp then false else sourcesAllAbove minp rest

/-- `SimpleDDoSDetector.detect_ddos_targets` (lines 35-46): a destination is
appended exactly when its distinct-source count strictly exceeds
`ips_threshold` and every source's count reaches `min_packets_per_source`. -/
def detect_ddos_targets (cfg : DetectorConfig) : IpsState → List Nat
  | [] => []
  | (dst, srcs) :: rest =>
    if cfg.ips_threshold < srcs.length
        && sourcesAllAbove cfg.min_packets_per_source srcs then
      dst :: detect_ddos_targets cfg rest
    else detect_ddos_targets cfg rest

/-- A `defaultdict(int)` indexing read, `m[k]`: a present key returns its
value and leaves the dict alone; a missing key inserts `(k, 0)` at the end
and returns 0.  Used to check that `detect_ddos_targets` never inserts. -/
def ddGet : List (Nat × Nat) → Nat → Nat × List (Nat × Nat)
  | [], k => (0, [(k, 0)])
  | (s, c) :: rest, k =>
    if s = k then (c, (s, c) :: rest)
    else
      let r := ddGet rest k
      (r.1, (s, c) :: r.2)

/-- The inner loop of `detect_ddos_targets` with every
`self.ips_state[dst_addr][src_addr]` read performed through the
`defaultdict` indexing semantics, threading the possibly-updated inner
dict. -/
def scanSources (minp : Nat) : List (Nat × Nat) → List Nat → Bool × List (Nat × Nat)
  | srcs, [] => (true, srcs)
  | srcs, k :: keys =>
    let r := ddGet srcs k
    if r.1 < minp then (false, r.2)
    else scanSources minp r.2 keys

/-- `detect_ddos_targets` with its state reads made explicit: iterate the
destinations, and for each one over threshold run the inner scan over its own
key list, reassembling the state with whatever the indexing reads left
behind.  Its first component is the targets list, its second the detector
state after evaluation. -/
def detectScan (cfg : DetectorConfig) : IpsState → List Nat × IpsState
  | [] => ([], [])
  | (dst, srcs) :: rest =>
    if cfg.ips_threshold < srcs.length then
      let p := scanSources cfg.min_packets_per_source srcs (srcs.map Prod.fst)
      let q := detectScan cfg rest
      ((if p.1 then dst :: q.1 else q.1), (dst, p.2) :: q.2)
    else
      let q := detectScan cfg rest
      (q.1, (dst, srcs) :: q.2)

/-- Detector-local state of `run`: the accumulator plus the list of reports
emitted so far (one entry per window whose target list was non-empty). -/
structure DetectorState where
  ips_state : IpsState
  reports : List (List Nat)
deriving Repr, DecidableEq

/-- One iteration of `SimpleDDoSDetector.run` (lines 55-68): `q.get` either
times out (`queue.Empty`, `pass`) or yields a packet fed to `update_state`;
then, when the analysis interval has elapsed (`expired`), evaluate, report a
non-empty target list, and reassign `ips_state` to a fresh empty dict.  A
`ZeroDivisionError` from `update_state` escapes to the `except` at line 69
and ends the detector. -/
def detector_step (cfg : DetectorConfig) (st : DetectorState)
    (pack : Option (List FlowRecord)) (expired : Bool) :
    Except ZeroDiv DetectorState :=
  match
    (match pack with
     | none => Except.ok st.ips_state
     | some flows => update_state cfg st.ips_state flows) with
  | .error e => .error e
  | .ok ips =>
    if expired then
      let tgts := detect_ddos_targets cfg ips
      .ok { ips_state := []
            reports := st.reports ++ (if tgts.length ≠ 0 then [tgts] else []) }
    else
      .ok { ips_state := ips, reports := st.reports }

/-!  Concrete inputs used in witnesses and counterexamples. -/

/-- A concrete valid v5 datagram: version 5, one declared flow, 72 bytes;
flow fields src 10.0.0.1, dst 10.0.0.2, 100 packets, 6000 bytes,
ports 1234 → 80, tcpflags 24, proto 6. -/
def sampleDatagram : List Nat :=
  [0, 5, 0, 1] ++ List.replicate 20 0 ++
    ([10, 0, 0, 1] ++ [10, 0, 0, 2] ++ [0, 0, 0, 0] ++ [0, 1] ++ [0, 2] ++
     [0, 0, 0, 100] ++ [0, 0, 23, 112] ++ [0, 0, 0, 0] ++ [0, 0, 0, 0] ++
     [4, 210] ++ [0, 80] ++ [0] ++ [24] ++ [6] ++ [0] ++
     [0, 0] ++ [0, 0] ++ [0] ++ [0] ++ [0, 0])

/-- A 24-byte datagram whose version field reads 6. -/
def wrongVersionDatagram : List Nat := [0, 6] ++ List.replicate 22 0

/-- An empty loop state with one healthy registered module. -/
def s0 : LoopState := ⟨0, 0, [⟨"simple_ddos_detector", [], false⟩]⟩

/-- A 25-byte datagram: a valid version-5 header declaring 0 flows, followed
by one stray trailing byte, so `len != header_len + nflows * flow_len`. -/
def malformedDatagram : List Nat := [0, 5, 0, 0] ++ List.replicate 20 0 ++ [0]

/-- A placeholder consumer used as a `getD` default. -/
def noConsumer : Consumer := ⟨"", [], false⟩

/-- Three registered modules, the middle one failing. -/
def wMods : List Consumer := [⟨"a", [], false⟩, ⟨"bad", [], true⟩, ⟨"c", [], false⟩]

/-- The decoded packet used in dispatch witnesses. -/
def wPacket : FlowPacket := { header := { version := 5, nflows := 0 }, flows := [] }

/-- Event trace for the counters witness: three datagrams (well-formed,
1-byte, malformed-length) and one empty receive. -/
def wEvents : List Event :=
  [.datagram sampleDatagram, .datagram [0], .datagram malformedDatagram, .wouldBlock]

/-- The detector options used in concrete checks: a 60-second window, more
than 2 distinct sources, average packet size below 500, at least 5 packets
per source. -/
def cfg0 : DetectorConfig := ⟨60, 2, 500, 5⟩

/-- A flow record carrying `npackets = 0`. -/
def zeroFlow : FlowRecord :=
  { src_addr := 1, dst_addr := 2, src_port := 3, dst_port := 4
    npackets := 0, nbytes := 500, tcpflags := 0, proto := 6 }

/-- A detector state with one destination over threshold and well-fed
sources, one under the source-count threshold, and one with a weak source. -/
def wState : IpsState :=
  [(7, [(1, 5), (2, 6), (3, 9)]), (8, [(1, 50)]), (9, [(1, 4), (2, 9), (3, 9)])]

/-- A non-empty accumulator fed into a window-boundary iteration. -/
def wDetectorState : DetectorState := ⟨wState, []⟩

/-!  Theorems. -/

/-- When the data covers all `cnt` record slices, the record loop succeeds and
returns exactly the records read at offsets `start + 48*i` in order. -/
theorem parseFlows_ok (d : List Nat) :
    ∀ (cnt start : Nat), start + 48 * cnt ≤ d.length →
      parseFlows d start cnt
        = .ok ((List.range cnt).map fun i => parseFlow d (start + 48 * i)) := by
  intro cnt
  induction cnt with
  | zero => intro start _; simp [parseFlows]
  | succ k ih =>
    intro start h
    have h48 : start + 48 ≤ d.length := by omega
    have ih' := ih (start + 48) (by omega)
    simp only [parseFlows, if_pos h48, ih']
    simp only [List.range_succ_eq_map, List.map_cons, List.map_map]
    refine congrArg _ (congrArg _ ?_)
    apply List.map_congr_left
    intro a _
    simp only [Function.comp]
    have : start + 48 * (a + 1) = start + 48 + 48 * a := by ring
    rw [Nat.succ_eq_add_one, this]

/-- C1: for every valid version-5 datagram whose length equals
`header_size + N * flow_record_size` with `N` the declared flow count,
`parse_netflow_packet` returns a packet whose flow list is exactly the `N`
records read at the wire offsets `24 + 48*i`, in wire order; and the record
read at offset `24 + 48*i` has its `src_addr`, `dst_addr`, `src_port`,
`dst_port`, `npackets`, `nbytes`, `tcpflags` and `proto` fields equal to the
big-endian integers at that record's fixed offsets in the datagram. -/
theorem parse_valid_v5 (d : List Nat) (N i : Nat)
    (hv : be2 d 0 = 5) (hN : be2 d 2 = N)
    (hlen : d.length = 24 + 48 * N) (hi : i < N) :
    parse_netflow_packet d
      = .ok (some { header := { version := 5, nflows := N }
                    flows := (List.range N).map fun j => parseFlow d (24 + 48 * j) }) ∧
    ((List.range N).map fun j => parseFlow d (24 + 48 * j)).length = N ∧
    (parseFlow d (24 + 48 * i)).src_addr = be4 d (24 + 48 * i) ∧
    (parseFlow d (24 + 48 * i)).dst_addr = be4 d (24 + 48 * i + 4) ∧
    (parseFlow d (24 + 48 * i)).src_port = be2 d (24 + 48 * i + 32) ∧
    (parseFlow d (24 + 48 * i)).dst_port = be2 d (24 + 48 * i + 34) ∧
    (parseFlow d (24 + 48 * i)).npackets = be4 d (24 + 48 * i + 16) ∧
    (parseFlow d (24 + 48 * i)).nbytes = be4 d (24 + 48 * i + 20) ∧
    (parseFlow d (24 + 48 * i)).tcpflags = d.getD (24 + 48 * i + 37) 0 ∧
    (parseFlow d (24 + 48 * i)).proto = d.getD (24 + 48 * i + 38) 0 := by
  have hne : ¬ d.length = 0 := by omega
  have hge : ¬ d.length < 24 := by omega
  have hflows := parseFlows_ok d N 24 (by omega)
  refine ⟨?_, by simp, rfl, rfl, rfl, rfl, rfl, rfl, rfl, rfl⟩
  simp only [parse_netflow_packet, if_neg hne, if_neg hge, hv, hN]
  simp [hflows]

theorem parse_valid_v5_witness :
    parse_netflow_packet sampleDatagram
      = .ok (some { header := { version := 5, nflows := 1 }
                    flows := (List.range 1).map fun j =>
                      parseFlow sampleDatagram (24 + 48 * j) }) ∧
    ((List.range 1).map fun j => parseFlow sampleDatagram (24 + 48 * j)).length = 1 ∧
    (parseFlow sampleDatagram (24 + 48 * 0)).src_addr = be4 sampleDatagram (24 + 48 * 0) ∧
    (parseFlow sampleDatagram (24 + 48 * 0)).dst_addr = be4 sampleDatagram (24 + 48 * 0 + 4) ∧
    (parseFlow sampleDatagram (24 + 48 * 0)).src_port = be2 sampleDatagram (24 + 48 * 0 + 32) ∧
    (parseFlow sampleDatagram (24 + 48 * 0)).dst_port = be2 sampleDatagram (24 + 48 * 0 + 34) ∧
    (parseFlow sampleDatagram (24 + 48 * 0)).npackets = be4 sampleDatagram (24 + 48 * 0 + 16) ∧
    (parseFlow sampleDatagram (24 + 48 * 0)).nbytes = be4 sampleDatagram (24 + 48 * 0 + 20) ∧
    (parseFlow sampleDatagram (24 + 48 * 0)).tcpflags = sampleDatagram.getD (24 + 48 * 0 + 37) 0 ∧
    (parseFlow sampleDatagram (24 + 48 * 0)).proto = sampleDatagram.getD (24 + 48 * 0 + 38) 0 :=
  parse_valid_v5 sampleDatagram 1 0 (by decide) (by decide) (by decide) (by decide)

/-- C8: a datagram large enough to carry a header but whose version field is
not 5 makes `parse_netflow_packet` return the error result `None` without any
flow-record parsing, and servicing such a datagram only increments
`packets_total`: no record is produced, dispatched, or counted as
processed. -/
theorem parse_rejects_wrong_version (d : List Nat) (s : LoopState)
    (h24 : 24 ≤ d.length) (hv : be2 d 0 ≠ 5) :
    parse_netflow_packet d = .ok none ∧
    serviceEvent s (.datagram d)
      = { s with packets_total := s.packets_total + 1 } := by
  have hne : ¬ d.length = 0 := by omega
  have hge : ¬ d.length < 24 := by omega
  have hp : parse_netflow_packet d = .ok none := by
    simp only [parse_netflow_packet, if_neg hne, if_neg hge, if_pos hv]
  exact ⟨hp, rfl⟩

theorem parse_rejects_wrong_version_witness :
    parse_netflow_packet wrongVersionDatagram = .ok none ∧
    serviceEvent s0 (.datagram wrongVersionDatagram)
      = { s0 with packets_total := s0.packets_total + 1 } :=
  parse_rejects_wrong_version wrongVersionDatagram s0 (by decide) (by decide)

/-- C9 is false of the code: `parse_netflow_packet` performs no minimum-size
validation; on a non-empty datagram shorter than the 24-byte header,
`struct.unpack` at line 47 raises `struct.error` instead of returning a
result (the exception is only stopped by the dispatch loop's catch-all
`except` at line 220). -/
theorem parse_short_input_raises :
    parse_netflow_packet [0] = .error .structError ∧
    parse_netflow_packet (List.replicate 23 0) = .error .structError :=
  ⟨rfl, rfl⟩

/-- C2 is false of the code: on a datagram whose declared flow count is
inconsistent with its length, the decoder does not return an error — line 81
only logs `'Malformed packet received'` and parsing continues, and here
`parse_netflow_packet` returns a normal packet.  The claim's dispatch half
(nothing processed or dispatched) does hold of the program, but only because
the decode call at line 211 raises `AttributeError` for every datagram
whatsoever — it is not a flow-count validation, as the third conjunct shows:
servicing the malformed datagram behaves exactly like servicing any other. -/
theorem malformed_length_still_accepted :
    malformedLength malformedDatagram ∧
    parse_netflow_packet malformedDatagram
      = .ok (some { header := { version := 5, nflows := 0 }, flows := [] }) ∧
    serviceEvent s0 (.datagram malformedDatagram)
      = { s0 with packets_total := s0.packets_total + 1 } ∧
    parse_packet malformedDatagram = .error .attributeError :=
  ⟨by decide, rfl, rfl, rfl⟩

/-- The fan-out loop maps `putPacket` over the module list. -/
theorem dispatchToModules_fst (mods : List Consumer) (p : FlowPacket) :
    (dispatchToModules mods p).1 = mods.map fun c => putPacket c p := by
  induction mods with
  | nil => rfl
  | cons c cs ih => simp [dispatchToModules, ih]

/-- The fan-out loop's error log names exactly the failing modules, in
order. -/
theorem dispatchToModules_snd (mods : List Consumer) (p : FlowPacket) :
    (dispatchToModules mods p).2
      = (mods.filter fun c => c.failing).map Consumer.name := by
  induction mods with
  | nil => rfl
  | cons c cs ih =>
    simp only [dispatchToModules, ih, List.filter_cons]
    cases h : c.failing <;> simp [h]

/-- C3: for a successfully decoded packet, the fan-out loop services every
registered module exactly once and in place: the `i`-th output module is the
`i`-th input module with the packet appended once to its queue — unless that
module's enqueue raises, in which case its queue is unchanged and its name is
logged, without aborting delivery to any other module (every other module's
outcome is independent of which modules fail). -/
theorem dispatch_fanout (mods : List Consumer) (p : FlowPacket) (i : Nat)
    (hi : i < mods.length) :
    (dispatchToModules mods p).1.length = mods.length ∧
    ((dispatchToModules mods p).1.getD i noConsumer).name
      = (mods.getD i noConsumer).name ∧
    ((dispatchToModules mods p).1.getD i noConsumer).queue
      = (if (mods.getD i noConsumer).failing
         then (mods.getD i noConsumer).queue
         else (mods.getD i noConsumer).queue ++ [p]) ∧
    (dispatchToModules mods p).2
      = (mods.filter fun c => c.failing).map Consumer.name := by
  have hfst := dispatchToModules_fst mods p
  have hlen : (dispatchToModules mods p).1.length = mods.length := by
    simp [hfst]
  have hi' : i < (dispatchToModules mods p).1.length := by omega
  have hget : (dispatchToModules mods p).1.getD i noConsumer
      = putPacket (mods.getD i noConsumer) p := by
    rw [hfst, List.getD_eq_getElem _ _ (by simpa using hi),
      List.getD_eq_getElem _ _ hi, List.getElem_map]
  refine ⟨hlen, ?_, ?_, dispatchToModules_snd mods p⟩
  · rw [hget]; unfold putPacket; split <;> rfl
  · rw [hget]; unfold putPacket; split <;> simp_all

theorem dispatch_fanout_witness :
    (dispatchToModules wMods wPacket).1.length = wMods.length ∧
    ((dispatchToModules wMods wPacket).1.getD 2 noConsumer).name
      = (wMods.getD 2 noConsumer).name ∧
    ((dispatchToModules wMods wPacket).1.getD 2 noConsumer).queue
      = (if (wMods.getD 2 noConsumer).failing
         then (wMods.getD 2 noConsumer).queue
         else (wMods.getD 2 noConsumer).queue ++ [wPacket]) ∧
    (dispatchToModules wMods wPacket).2
      = (wMods.filter fun c => c.failing).map Consumer.name :=
  dispatch_fanout wMods wPacket 2 (by decide)

/-- One serviced event preserves `packets_processed ≤ packets_total`. -/
theorem serviceEvent_counters_le (s : LoopState) (ev : Event)
    (h : s.packets_processed ≤ s.packets_total) :
    (serviceEvent s ev).packets_processed ≤ (serviceEvent s ev).packets_total := by
  cases ev with
  | wouldBlock => exact h
  | datagram d => exact Nat.le_succ_of_le h

/-- C5: across any sequence of dispatch-loop iterations,
`packets_processed ≤ packets_total` is preserved; a received datagram
increments `packets_total` by exactly one (line 207, before the decode call),
and `packets_processed` is never incremented at all — the decode call at
line 211 raises `AttributeError` on every datagram before line 213 can run,
so in particular `packets_processed` is incremented only on a successful
decode (vacuously, as none ever occurs); a `BlockingIOError` receive changes
nothing. -/
theorem counters_invariant (s : LoopState) (evs : List Event) (d : List Nat)
    (hinv : s.packets_processed ≤ s.packets_total) :
    (runLoop s evs).packets_processed ≤ (runLoop s evs).packets_total ∧
    (serviceEvent s (.datagram d)).packets_total = s.packets_total + 1 ∧
    (serviceEvent s (.datagram d)).packets_processed = s.packets_processed ∧
    serviceEvent s .wouldBlock = s := by
  refine ⟨?_, rfl, rfl, rfl⟩
  induction evs generalizing s with
  | nil => simpa [runLoop] using hinv
  | cons ev evs ih =>
    have hstep := serviceEvent_counters_le s ev hinv
    simpa [runLoop] using ih (serviceEvent s ev) hstep

theorem counters_invariant_witness :
    (runLoop s0 wEvents).packets_processed ≤ (runLoop s0 wEvents).packets_total ∧
    (serviceEvent s0 (.datagram sampleDatagram)).packets_total = s0.packets_total + 1 ∧
    (serviceEvent s0 (.datagram sampleDatagram)).packets_processed
      = s0.packets_processed ∧
    serviceEvent s0 .wouldBlock = s0 :=
  counters_invariant s0 wEvents sampleDatagram (by decide)

/-- C4 is false of the code: `update_state` computes
`avg_packet_size = nbytes/npackets` unconditionally (line 28), so a flow
record with `npackets == 0` raises `ZeroDivisionError` instead of being
skipped; a record with a well-defined small average is accrued normally. -/
theorem update_state_zero_division :
    update_state cfg0 [] [zeroFlow] = .error .zeroDivisionError ∧
    update_state cfg0 []
        [{ src_addr := 1, dst_addr := 2, src_port := 3, dst_port := 4
           npackets := 10, nbytes := 500, tcpflags := 0, proto := 6 }]
      = .ok [(2, [(1, 10)])] := by
  refine ⟨rfl, ?_⟩
  norm_num [update_state, accrue, cfg0]

/-- The inner loop of `detect_ddos_targets` accepts a source dict exactly when
no source's accumulated count is below the per-source minimum. -/
theorem sourcesAllAbove_iff (minp : Nat) (srcs : List (Nat × Nat)) :
    sourcesAllAbove minp srcs = true ↔ ∀ sc ∈ srcs, minp ≤ sc.2 := by
  induction srcs with
  | nil => simp [sourcesAllAbove]
  | cons sc rest ih =>
    obtain ⟨s, c⟩ := sc
    simp only [sourcesAllAbove, List.mem_cons]
    by_cases h : c < minp
    · rw [if_pos h]
      constructor
      · intro hh; exact absurd hh (by decide)
      · intro hall
        exact absurd (hall (s, c) (Or.inl rfl)) (by omega)
    · rw [if_neg h, ih]
      constructor
      · rintro hall sc (rfl | hm)
        · exact Nat.le_of_not_lt h
        · exact hall sc hm
      · intro hall sc hm
        exact hall sc (Or.inr hm)

/-- C6: `detect_ddos_targets` returns a destination address iff the state
holds an entry for it whose distinct-source count strictly exceeds
`ips_threshold` and in which every contributing source has accrued at least
`min_packets_per_source` packets; a destination with any source below the
minimum is not returned. -/
theorem detect_targets_iff (cfg : DetectorConfig) (st : IpsState) (dst : Nat) :
    dst ∈ detect_ddos_targets cfg st ↔
      ∃ srcs, (dst, srcs) ∈ st ∧ cfg.ips_threshold < srcs.length ∧
        ∀ sc ∈ srcs, cfg.min_packets_per_source ≤ sc.2 := by
  induction st with
  | nil => simp [detect_ddos_targets]
  | cons e rest ih =>
    obtain ⟨d, srcs⟩ := e
    simp only [detect_ddos_targets]
    cases hb : (decide (cfg.ips_threshold < srcs.length)
        && sourcesAllAbove cfg.min_packets_per_source srcs) with
    | true =>
      have hparts := Bool.and_eq_true _ _ |>.mp hb
      have hthr : cfg.ips_threshold < srcs.length := of_decide_eq_true hparts.1
      have hall : ∀ sc ∈ srcs, cfg.min_packets_per_source ≤ sc.2 :=
        (sourcesAllAbove_iff _ _).mp hparts.2
      rw [if_pos rfl, List.mem_cons, ih]
      constructor
      · rintro (rfl | ⟨srcs₂, hm, hlen, hall₂⟩)
        · exact ⟨srcs, List.mem_cons.mpr (Or.inl rfl), hthr, hall⟩
        · exact ⟨srcs₂, List.mem_cons.mpr (Or.inr hm), hlen, hall₂⟩
      · rintro ⟨srcs₂, hm, hlen, hall₂⟩
        rcases List.mem_cons.mp hm with heq | hm₂
        · exact Or.inl (congrArg Prod.fst heq)
        · exact Or.inr ⟨srcs₂, hm₂, hlen, hall₂⟩
    | false =>
      rw [if_neg (by simp), ih]
      constructor
      · rintro ⟨srcs₂, hm, hlen, hall₂⟩
        exact ⟨srcs₂, List.mem_cons.mpr (Or.inr hm), hlen, hall₂⟩
      · rintro ⟨srcs₂, hm, hlen, hall₂⟩
        rcases List.mem_cons.mp hm with heq | hm₂
        · exfalso
          injection heq with h1 h2
          subst h2
          have htrue : (decide (cfg.ips_threshold < srcs₂.length)
              && sourcesAllAbove cfg.min_packets_per_source srcs₂) = true := by
            rw [Bool.and_eq_true]
            exact ⟨decide_eq_true hlen, (sourcesAllAbove_iff _ _).mpr hall₂⟩
          rw [hb] at htrue
          exact absurd htrue (by decide)
        · exact ⟨srcs₂, hm₂, hlen, hall₂⟩

theorem detect_targets_iff_witness :
    7 ∈ detect_ddos_targets cfg0 wState ∧ 9 ∉ detect_ddos_targets cfg0 wState :=
  ⟨(detect_targets_iff cfg0 wState 7).mpr
      ⟨[(1, 5), (2, 6), (3, 9)], by decide, by decide, by decide⟩,
   by decide⟩

/-- A `defaultdict` read of a key that is present returns the dict
unchanged. -/
theorem ddGet_mem (srcs : List (Nat × Nat)) (k : Nat)
    (h : k ∈ srcs.map Prod.fst) : (ddGet srcs k).2 = srcs := by
  induction srcs with
  | nil => simp at h
  | cons sc rest ih =>
    obtain ⟨s, c⟩ := sc
    by_cases hs : s = k
    · simp [ddGet, hs]
    · have hk : k ∈ rest.map Prod.fst := by
        rcases List.mem_cons.mp h with h1 | h1
        · exact absurd h1.symm hs
        · exact h1
      simp [ddGet, hs, ih hk]

/-- The inner scan only reads keys that are present, so it returns the source
dict unchanged. -/
theorem scanSources_frame (minp : Nat) (srcs : List (Nat × Nat))
    (keys : List Nat) (h : ∀ k ∈ keys, k ∈ srcs.map Prod.fst) :
    (scanSources minp srcs keys).2 = srcs := by
  induction keys with
  | nil => rfl
  | cons k keys ih =>
    have hd : (ddGet srcs k).2 = srcs := ddGet_mem srcs k (h k (List.mem_cons_self _ _))
    simp only [scanSources]
    split
    · exact hd
    · rw [hd]
      exact ih fun k2 hk2 => h k2 (List.mem_cons.mpr (Or.inr hk2))

/-- C10: evaluation is read-only.  Running `detect_ddos_targets` with every
`ips_state` read performed through the `defaultdict` indexing semantics
leaves the detector state exactly as it was: no destination or source key is
inserted and no accumulated count changes. -/
theorem detect_readonly (cfg : DetectorConfig) (st : IpsState) :
    (detectScan cfg st).2 = st := by
  induction st with
  | nil => rfl
  | cons e rest ih =>
    obtain ⟨d, srcs⟩ := e
    simp only [detectScan]
    split
    · have hframe : (scanSources cfg.min_packets_per_source srcs
          (srcs.map Prod.fst)).2 = srcs :=
        scanSources_frame _ _ _ (fun k hk => hk)
      simp [hframe, ih]
    · simp [ih]

/-- C7: whenever the analysis interval has elapsed, the iteration that
evaluates the window ends by reassigning the accumulator wholesale to a fresh
empty mapping, whatever the prior state and whatever packet arrived: the next
window starts empty, and evaluating the fresh state reports nothing. -/
theorem window_reset (cfg : DetectorConfig) (st : DetectorState)
    (pack : Option (List FlowRecord)) (st₂ : DetectorState)
    (h : detector_step cfg st pack true = .ok st₂) :
    st₂.ips_state = [] ∧ detect_ddos_targets cfg st₂.ips_state = [] := by
  unfold detector_step at h
  rcases hu : (match pack with
    | none => Except.ok st.ips_state
    | some flows => update_state cfg st.ips_state flows) with e | ips
  · rw [hu] at h; cases h
  · rw [hu] at h
    simp only [if_true] at h
    cases h
    exact ⟨rfl, rfl⟩

theorem window_reset_witness :
    (⟨[], [[7]]⟩ : DetectorState).ips_state = [] ∧
    detect_ddos_targets cfg0 (⟨[], [[7]]⟩ : DetectorState).ips_state = [] :=
  window_reset cfg0 wDetectorState none ⟨[], [[7]]⟩ rfl

end NetflowAnalyzer

